import Mathlib

/-!
# Shallow embedding of the redis-practice shopping-cart logic

This file embeds the cart-management logic of the repository's two scripts:

* `src/main.py` — `add_item_to_cart`, `remove_item_from_cart`,
  `get_cart_contents` (no TTL-marker maintenance, no input validation);
* `src/redis_streamlit_app.py` — `_update_cart_ttl`, `add_to_cart`,
  `get_cart`, `clear_cart`, `checkout`, and the data-editor
  normalize/diff/apply block of `tab_cart`.

The external Redis store is modelled per user: the user's cart hash
`cart:<uid>` is an association list from SKU (field) to quantity (value,
an integer — Redis stores strings but every operation here reads and
writes them through `int`/`HINCRBY`), the expiry-marker key
`cart_ttl:<uid>` is an `Option Nat` holding the TTL it was set with
(`SETEX ttl` gives `some ttl`, `DEL` gives `none`), and the `orders`
stream is a list of records in append order.  Keys of distinct users
never collide (all keys are prefix-tagged with the uid), so one user's
state suffices for every claim, all of which are per-user.
-/

namespace RedisCart

/-- A Redis hash, as the sequence of its field/value pairs.  Fields are
SKU strings; values are the integer quantities the code reads and writes
through `HINCRBY`/`int(...)`. -/
abbrev Hash := List (String × Int)

/-- `HGET`: value of the first field equal to `f`, if any. -/
def hget : Hash → String → Option Int
  | [], _ => none
  | p :: t, f => if p.1 = f then some p.2 else hget t f

/-- `HSET`: replace the value of field `f` in place if present, else
append the new field at the end (Redis hashes keep one entry per field). -/
def hset : Hash → String → Int → Hash
  | [], f, v => [(f, v)]
  | p :: t, f, v => if p.1 = f then (f, v) :: t else p :: hset t f v

/-- `HDEL`: remove field `f`. -/
def hdel : Hash → String → Hash
  | [], _ => []
  | p :: t, f => if p.1 = f then hdel t f else p :: hdel t f

/-- `HINCRBY`: add `d` to the value of field `f` (a missing field counts
as `0`), store the sum and return it alongside the updated hash. -/
def hincrby (h : Hash) (f : String) (d : Int) : Hash × Int :=
  let v := (hget h f).getD 0 + d
  (hset h f v, v)

/-- `HLEN`: number of fields. -/
def hlen (h : Hash) : Nat := h.length

/-- An order record appended to the `orders` stream by `checkout`:
`{"user_id": uid, "timestamp": ts}` plus one `item_<sku>` field per cart
entry carrying its quantity.  The `item_` prefixing is injective in the
SKU, so the item fields are kept here as the SKU/quantity pairs they
encode. -/
structure OrderRecord where
  user_id : String
  timestamp : String
  items : Hash
  deriving DecidableEq, Repr

/-- The per-user slice of the Redis store: the `cart:<uid>` hash, the
`cart_ttl:<uid>` marker (`some t` when the key exists and was set with
TTL `t` seconds), and the `orders` stream. -/
structure Store where
  cart : Hash
  ttlMarker : Option Nat
  orders : List OrderRecord
  deriving DecidableEq, Repr

/-- `CART_TTL_SEC = 30 * 60` from `redis_streamlit_app.py`. -/
def CART_TTL_SEC : Nat := 30 * 60

/-! ## `redis_streamlit_app.py` cart helpers -/

/-- `_update_cart_ttl`: `SETEX` the marker with `CART_TTL_SEC` when
`HLEN cart > 0`, else `DEL` it. -/
def update_cart_ttl (s : Store) : Store :=
  if hlen s.cart > 0 then { s with ttlMarker := some CART_TTL_SEC }
  else { s with ttlMarker := none }

/-- Outcome reported by `add_to_cart` through the sidebar: the two early
`st.sidebar.warning` returns, or the success path. -/
inductive AddResult where
  | rejectedQty
  | rejectedSku
  | added
  deriving DecidableEq, Repr

/-- `add_to_cart`: reject `qty <= 0` and empty SKU before touching the
store; otherwise `HINCRBY` the cart field and refresh the TTL marker. -/
def add_to_cart (sku : String) (qty : Int) (s : Store) : AddResult × Store :=
  if qty ≤ 0 then (AddResult.rejectedQty, s)
  else if sku = "" then (AddResult.rejectedSku, s)
  else
    let s1 : Store := { s with cart := (hincrby s.cart sku qty).1 }
    (AddResult.added, update_cart_ttl s1)

/-- `get_cart`: `HGETALL` of the cart hash with values as integers. -/
def get_cart (s : Store) : Hash := s.cart

/-- `clear_cart`: one `DEL cart_key ttl_key` removing the cart hash and
the TTL marker together. -/
def clear_cart (s : Store) : Store := { s with cart := [], ttlMarker := none }

/-- `checkout`: read the cart; on an empty cart report "nothing to
checkout" and return `False` without touching the store; otherwise
`XADD` the order record to the `orders` stream, `clear_cart`, and
return `True`. -/
def checkout (uid now : String) (s : Store) : Bool × Store :=
  let cart := get_cart s
  if cart = [] then (false, s)
  else
    let s1 : Store :=
      { s with orders := s.orders ++ [OrderRecord.mk uid now cart] }
    (true, clear_cart s1)

/-! ## `main.py` cart functions -/

/-- `add_item_to_cart`: unconditional `HINCRBY`; the integer is the
`new_quantity_in_cart` the function reports.  No validation, no TTL
maintenance. -/
def add_item_to_cart (s : Store) (sku : String) (quantity : Int) : Store × Int :=
  let r := hincrby s.cart sku quantity
  ({ s with cart := r.1 }, r.2)

/-- Outcome reported by `remove_item_from_cart`: the "not found"
message, the "removed completely" message, or the new quantity. -/
inductive RemoveResult where
  | notFound
  | removedAll
  | newQty (q : Int)
  deriving DecidableEq, Repr

/-- `remove_item_from_cart`: `HGET` the field; absent means a "not
found" no-op; `quantity_to_remove >= current` means `HDEL`; otherwise
`HINCRBY` by the negated amount, reporting the new quantity.  No TTL
maintenance. -/
def remove_item_from_cart (s : Store) (sku : String) (quantity_to_remove : Int) :
    Store × RemoveResult :=
  match hget s.cart sku with
  | none => (s, RemoveResult.notFound)
  | some current =>
    if quantity_to_remove ≥ current then
      ({ s with cart := hdel s.cart sku }, RemoveResult.removedAll)
    else
      let r := hincrby s.cart sku (-quantity_to_remove)
      ({ s with cart := r.1 }, RemoveResult.newQty r.2)

/-- `get_cart_contents`: `HGETALL` with values as integers. -/
def get_cart_contents (s : Store) : Hash := s.cart

/-! ## The data-editor normalize/diff/apply block of `tab_cart` -/

/-- One row of the edited table: pandas may hold `None`/`NaN` in either
column, modelled as `none`. -/
structure Row where
  sku : Option String
  qty : Option Int
  deriving DecidableEq, Repr

/-- One iteration of the loop building `edited_cart_dict`: skip a row
whose SKU is missing, empty, or whitespace-only; strip the SKU; skip
the row when its quantity is missing; otherwise add the quantity into
the dict entry of the stripped SKU (`edited_cart_dict.get(sku_clean,
0) + int(quantity)`). -/
def editedDictStep (acc : Hash) (r : Row) : Hash :=
  match r.sku with
  | some t =>
    if t ≠ "" ∧ t.trim ≠ "" then
      match r.qty with
      | some q => hset acc t.trim ((hget acc t.trim).getD 0 + q)
      | none => acc
    else acc
  | none => acc

/-- The loop building `edited_cart_dict` from the edited table rows. -/
def buildEditedDict (rows : List Row) : Hash :=
  rows.foldl editedDictStep []

/-- One step of the first pipeline loop of the editor-apply block, for
an entry `p` of `edited_cart_dict`: for a target quantity `<= 0`,
`HDEL` when the SKU was in the cart snapshot `cur`; for a new or
changed positive quantity, `HSET`; the boolean is
`made_changes_in_editor`. -/
def editorStep1 (cur : Hash) (acc : Hash × Bool) (p : String × Int) : Hash × Bool :=
  if p.2 ≤ 0 then
    if (hget cur p.1).isSome then (hdel acc.1 p.1, true) else acc
  else if hget cur p.1 = some p.2 then acc
  else (hset acc.1 p.1 p.2, true)

/-- First pipeline loop, over the entries of `edited_cart_dict`. -/
def editorPass1 (cur : Hash) (edited : Hash) : Hash × Bool :=
  edited.foldl (editorStep1 cur) (cur, false)

/-- One step of the second pipeline loop, for an entry `p` of the cart
snapshot: `HDEL` its SKU when it is no longer a key of
`edited_cart_dict`. -/
def editorStep2 (edited : Hash) (acc : Hash × Bool) (p : String × Int) : Hash × Bool :=
  if (hget edited p.1).isSome then acc else (hdel acc.1 p.1, true)

/-- Second pipeline loop, over the entries of the cart snapshot. -/
def editorPass2 (cur : Hash) (edited : Hash) (st : Hash × Bool) : Hash × Bool :=
  cur.foldl (editorStep2 edited) st

/-- The whole editor-apply block: compute both pipeline loops against
the cart as read (`current_cart_redis`); if any command was queued,
execute the pipeline and refresh the TTL marker, else leave the store
untouched. -/
def editor_apply (edited : Hash) (s : Store) : Store :=
  let r := editorPass2 s.cart edited (editorPass1 s.cart edited)
  if r.2 then update_cart_ttl { s with cart := r.1 } else s

/-! ## Auxiliary notions the claims quantify over -/

/-- Keys of an association-list hash are pairwise distinct — the
representation invariant of a Redis hash (and of a Python dict such as
`edited_cart_dict`). -/
def keysNodup (h : Hash) : Prop := (h.map Prod.fst).Nodup

instance (h : Hash) : Decidable (keysNodup h) :=
  inferInstanceAs (Decidable (h.map Prod.fst).Nodup)

/-- Keep an optional quantity only when it is positive — "the entries
of M whose quantity is > 0". -/
def posOnly : Option Int → Option Int
  | some q => if 0 < q then some q else none
  | none => none

/-- The Expiry-Marker rule of the spec: the `cart_ttl:<uid>` key exists
exactly when the cart is non-empty, and it was set with the fixed TTL
of 1800 seconds. -/
def ttlInvariant (s : Store) : Prop :=
  s.ttlMarker = (if s.cart = [] then none else some 1800)

instance (s : Store) : Decidable (ttlInvariant s) :=
  inferInstanceAs (Decidable (s.ttlMarker = _))

/-- The individual store commands `checkout` issues on a non-empty
cart, in program order: an `XADD` of the order record, then the single
`DEL cart_key ttl_key` of `clear_cart`.  The two are sent as separate
commands — no `MULTI`/`EXEC`, pipeline, or script groups them. -/
inductive RCmd where
  | xadd (rec : OrderRecord)
  | delCartAndTtl
  deriving DecidableEq, Repr

/-- Effect of one store command on the per-user state. -/
def applyRCmd (s : Store) (c : RCmd) : Store :=
  match c with
  | RCmd.xadd rec => { s with orders := s.orders ++ [rec] }
  | RCmd.delCartAndTtl => { s with cart := [], ttlMarker := none }

/-- The command sequence `checkout` issues: nothing on an empty cart,
else the `XADD` followed by the `DEL`. -/
def checkoutCmds (uid now : String) (s : Store) : List RCmd :=
  if get_cart s = [] then []
  else [RCmd.xadd (OrderRecord.mk uid now (get_cart s)), RCmd.delCartAndTtl]

/-- One `AddItem`/`RemoveItem` call of `main.py`, with its quantity
argument. -/
inductive CartOp where
  | add (d : Int)
  | remove (d : Int)
  deriving DecidableEq, Repr

/-- The spec's preconditions on the arguments: an added quantity is
positive, a removed quantity is non-negative. -/
def CartOp.valid : CartOp → Prop
  | CartOp.add d => 0 < d
  | CartOp.remove d => 0 ≤ d

instance (op : CartOp) : Decidable op.valid :=
  match op with
  | CartOp.add d => inferInstanceAs (Decidable (0 < d))
  | CartOp.remove d => inferInstanceAs (Decidable (0 ≤ d))

/-- Run one `main.py` cart call: `p.1` is the SKU, `p.2` the
operation. -/
def applyCartOp (s : Store) (p : String × CartOp) : Store :=
  match p.2 with
  | CartOp.add d => (add_item_to_cart s p.1 d).1
  | CartOp.remove d => (remove_item_from_cart s p.1 d).1

/-- Run a sequence of `main.py` cart calls. -/
def applyCartOps (s : Store) (ops : List (String × CartOp)) : Store :=
  ops.foldl applyCartOp s

/-- The operations of a call sequence addressed to one SKU. -/
def opsOn (sku : String) : List (String × CartOp) → List CartOp
  | [] => []
  | p :: t => if p.1 = sku then p.2 :: opsOn sku t else opsOn sku t

/-- One step of the spec's clamped signed sum: adding adds, removing
subtracts but never goes below zero. -/
def clampedStep (v : Int) : CartOp → Int
  | CartOp.add d => v + d
  | CartOp.remove d => max (v - d) 0

/-- The clamped sum of the signed deltas a call sequence applies to one
SKU. -/
def clampedSum (ops : List (String × CartOp)) (sku : String) : Int :=
  (opsOn sku ops).foldl clampedStep 0

/-- A non-positive value is never persisted: the quantity a clamped sum
leaves in the cart, `none` meaning the SKU is absent. -/
def clampedLift (v : Int) : Option Int :=
  if 0 < v then some v else none

/-- The contributions to `edited_cart_dict` at one normalized SKU: the
quantities of the rows that pass the normalization filter and whose
stripped SKU is `sku`, in row order. -/
def rowContribs : List Row → String → List Int
  | [], _ => []
  | r :: t, sku =>
    match r.sku, r.qty with
    | some tk, some q =>
      if (tk ≠ "" ∧ tk.trim ≠ "") ∧ tk.trim = sku then q :: rowContribs t sku
      else rowContribs t sku
    | _, _ => rowContribs t sku

/-! ## Concrete states used by witnesses and counterexamples -/

/-- A fresh user: empty cart, no marker, empty stream. -/
def emptyStore : Store := ⟨[], none, []⟩

/-- The spec's scenario cart `{"A": 2, "B": 2}`, with its marker. -/
def cartAB : Store := ⟨[("A", 2), ("B", 2)], some 1800, []⟩

/-- A one-item cart with its marker. -/
def cartA2 : Store := ⟨[("A", 2)], some 1800, []⟩

/-- The call sequence of the spec's scenario plus an over-removal. -/
def opsScenario : List (String × CartOp) :=
  [("A", CartOp.add 1), ("B", CartOp.add 2), ("A", CartOp.add 1),
   ("A", CartOp.remove 5), ("C", CartOp.add 3)]

/-! ## Hash primitive lemmas -/

@[simp] theorem hget_hset (h : Hash) (f g : String) (v : Int) :
    hget (hset h f v) g = if g = f then some v else hget h g := by
  induction h with
  | nil =>
    by_cases hgf : g = f
    · subst hgf; simp [hset, hget]
    · have hfg : ¬ f = g := fun hh => hgf hh.symm
      simp [hset, hget, hfg, hgf]
  | cons p t ih =>
    simp only [hset]
    by_cases hpf : p.1 = f
    · rw [if_pos hpf]
      by_cases hgf : g = f
      · subst hgf; simp [hget]
      · have hfg : ¬ f = g := fun hh => hgf hh.symm
        have hpg : ¬ p.1 = g := hpf ▸ hfg
        simp [hget, hfg, hpg, hgf]
    · rw [if_neg hpf]
      by_cases hpg : p.1 = g
      · have hgf : ¬ g = f := fun hh => hpf (hpg.trans hh)
        simp [hget, hpg, hgf]
      · simp [hget, hpg, ih]

@[simp] theorem hget_hdel (h : Hash) (f g : String) :
    hget (hdel h f) g = if g = f then none else hget h g := by
  induction h with
  | nil => simp [hdel, hget]
  | cons p t ih =>
    simp only [hdel]
    by_cases hpf : p.1 = f
    · rw [if_pos hpf]
      by_cases hgf : g = f
      · rw [ih, if_pos hgf, if_pos hgf]
      · have hpg : ¬ p.1 = g := fun hh => hgf (hh.symm.trans hpf)
        rw [ih, if_neg hgf, if_neg hgf]
        simp [hget, hpg]
    · rw [if_neg hpf]
      by_cases hpg : p.1 = g
      · have hgf : ¬ g = f := fun hh => hpf (hpg.trans hh)
        simp [hget, hpg, hgf]
      · simp [hget, hpg, ih]

theorem hget_eq_none_of_not_mem (h : Hash) (f : String)
    (hf : f ∉ h.map Prod.fst) : hget h f = none := by
  induction h with
  | nil => rfl
  | cons p t ih =>
    simp only [List.map_cons, List.mem_cons, not_or] at hf
    have hpf : ¬ p.1 = f := fun hh => hf.1 hh.symm
    simp [hget, hpf, ih hf.2]

/-- `update_cart_ttl` never touches the cart hash or the stream. -/
@[simp] theorem update_cart_ttl_cart (s : Store) :
    (update_cart_ttl s).cart = s.cart := by
  by_cases h : hlen s.cart > 0 <;> simp [update_cart_ttl, h]

@[simp] theorem update_cart_ttl_orders (s : Store) :
    (update_cart_ttl s).orders = s.orders := by
  by_cases h : hlen s.cart > 0 <;> simp [update_cart_ttl, h]

/-- `_update_cart_ttl` establishes the marker rule outright: it is the
rule, re-evaluated from current emptiness. -/
theorem ttlInvariant_update_cart_ttl (s : Store) :
    ttlInvariant (update_cart_ttl s) := by
  by_cases h : s.cart = []
  · simp [update_cart_ttl, ttlInvariant, hlen, h]
  · have hpos : 0 < s.cart.length := List.length_pos.mpr h
    simp [update_cart_ttl, ttlInvariant, hlen, h, hpos, CART_TTL_SEC]

/-- Sanity: folding the command sequence of `checkout` over the store
reproduces the state `checkout` leaves behind, for every store. -/
theorem checkout_eq_fold_checkoutCmds (uid now : String) (s : Store) :
    (checkoutCmds uid now s).foldl applyRCmd s = (checkout uid now s).2 := by
  by_cases h : s.cart = [] <;>
    simp [checkoutCmds, checkout, applyRCmd, clear_cart, get_cart, h]

/-! ## Claim theorems -/

/-- C1: `checkout` on a non-empty cart is not atomic: the `XADD` of the
order record and the `DEL` of the cart are two separate store commands
with no transaction around them, so after the first command the order
is recorded while the cart is still non-empty — exactly the torn state
the claim says can never exist.  Concretely, on the cart
`{"A": 2, "B": 2}`, the state after the `XADD` prefix of the command
sequence holds the new order record and the untouched cart. -/
theorem C1_checkout_torn_intermediate_state :
    ((checkoutCmds "u1" "t0" cartAB).take 1).foldl applyRCmd cartAB =
      Store.mk [("A", 2), ("B", 2)] (some 1800)
        [OrderRecord.mk "u1" "t0" [("A", 2), ("B", 2)]] ∧
    (((checkoutCmds "u1" "t0" cartAB).take 1).foldl applyRCmd cartAB).orders ≠
      cartAB.orders ∧
    (((checkoutCmds "u1" "t0" cartAB).take 1).foldl applyRCmd cartAB).cart ≠ [] := by
  decide

/-- C2: `checkout` on a non-empty cart returns success, leaves the cart
empty, and appends exactly one order record, whose snapshot is the cart
contents read immediately before the checkout. -/
theorem C2_checkout_nonempty_postcondition (uid now : String) (s : Store)
    (h : get_cart s ≠ []) :
    (checkout uid now s).1 = true ∧
    get_cart (checkout uid now s).2 = [] ∧
    (checkout uid now s).2.orders =
      s.orders ++ [OrderRecord.mk uid now (get_cart s)] := by
  have h' : s.cart ≠ [] := h
  simp [checkout, clear_cart, get_cart, h']

theorem C2_checkout_nonempty_postcondition_witness :
    get_cart cartAB ≠ [] ∧
    ((checkout "u1" "t0" cartAB).1 = true ∧
      get_cart (checkout "u1" "t0" cartAB).2 = [] ∧
      (checkout "u1" "t0" cartAB).2.orders =
        cartAB.orders ++ [OrderRecord.mk "u1" "t0" (get_cart cartAB)]) :=
  ⟨by decide, C2_checkout_nonempty_postcondition "u1" "t0" cartAB (by decide)⟩

/-- C3 (counterexample): `main.py`'s `remove_item_from_cart` is a
mutating cart operation that never touches the Expiry Marker: emptying
the cart `{"A": 2}` leaves the marker standing, so after this mutating
operation the marker exists while the cart is empty — the claimed
invariant is false. -/
theorem C3_marker_counterexample :
    ttlInvariant cartA2 ∧
    (remove_item_from_cart cartA2 "A" 2).1.cart = [] ∧
    (remove_item_from_cart cartA2 "A" 2).1.ttlMarker = some 1800 ∧
    ¬ ttlInvariant (remove_item_from_cart cartA2 "A" 2).1 := by
  decide

/-- C3 (amended): the streamlit app's mutating cart operations —
`add_to_cart`, `clear_cart`, `checkout`, and the editor-apply block —
all preserve the marker rule "the Expiry Marker exists iff the cart is
non-empty, and was set with TTL 1800 seconds"; `main.py`'s
`add_item_to_cart`/`remove_item_from_cart` do not maintain the marker
at all. -/
theorem C3_streamlit_marker_invariant (s : Store) (sku : String) (qty : Int)
    (M : Hash) (uid now : String) (h : ttlInvariant s) :
    ttlInvariant (add_to_cart sku qty s).2 ∧
    ttlInvariant (clear_cart s) ∧
    ttlInvariant (checkout uid now s).2 ∧
    ttlInvariant (editor_apply M s) := by
  refine ⟨?_, ?_, ?_, ?_⟩
  · by_cases hq : qty ≤ 0
    · simpa [add_to_cart, hq] using h
    · by_cases hs : sku = ""
      · simpa [add_to_cart, hq, hs] using h
      · simp only [add_to_cart, hq, hs]
        simp [ttlInvariant_update_cart_ttl]
  · simp [clear_cart, ttlInvariant]
  · by_cases hc : get_cart s = []
    · simpa [checkout, hc] using h
    · simp [checkout, hc, clear_cart, ttlInvariant]
  · by_cases hr : (editorPass2 s.cart M (editorPass1 s.cart M)).2
    · simp [editor_apply, hr, ttlInvariant_update_cart_ttl]
    · simpa [editor_apply, hr] using h

theorem C3_streamlit_marker_invariant_witness :
    ttlInvariant emptyStore ∧
    (ttlInvariant (add_to_cart "A" 1 emptyStore).2 ∧
      ttlInvariant (clear_cart emptyStore) ∧
      ttlInvariant (checkout "u1" "t0" emptyStore).2 ∧
      ttlInvariant (editor_apply [("A", 1)] emptyStore)) :=
  ⟨by decide,
   C3_streamlit_marker_invariant emptyStore "A" 1 [("A", 1)] "u1" "t0" (by decide)⟩

/-- A first-loop step for an entry with another SKU leaves this SKU's
entry unchanged. -/
theorem hget_editorStep1_other (cur : Hash) (acc : Hash × Bool)
    (p : String × Int) (sku : String) (hne : ¬ sku = p.1) :
    hget (editorStep1 cur acc p).1 sku = hget acc.1 sku := by
  unfold editorStep1
  split_ifs <;> simp [hne]

/-- Folding the first loop over entries that do not mention this SKU
leaves its entry unchanged. -/
theorem editorPass1_fold_get_of_none (cur M : Hash) (acc : Hash × Bool)
    (sku : String) (h : hget M sku = none) :
    hget (M.foldl (editorStep1 cur) acc).1 sku = hget acc.1 sku := by
  induction M generalizing acc with
  | nil => rfl
  | cons p t ih =>
    by_cases hk : p.1 = sku
    · exact absurd h (by simp [hget, hk])
    · have ht : hget t sku = none := by simpa [hget, hk] using h
      rw [List.foldl_cons, ih _ ht,
        hget_editorStep1_other cur acc p sku (fun hh => hk hh.symm)]

/-- Folding the first loop over a dict holding `q` for this SKU leaves
the entry deleted when `q <= 0` and set to `q` otherwise. -/
theorem editorPass1_fold_get_some (cur M : Hash) (acc : Hash × Bool)
    (sku : String) (q : Int) (hnd : keysNodup M)
    (hacc : hget acc.1 sku = hget cur sku) (hM : hget M sku = some q) :
    hget (M.foldl (editorStep1 cur) acc).1 sku =
      if q ≤ 0 then none else some q := by
  induction M generalizing acc with
  | nil => exact absurd hM (by simp [hget])
  | cons p t ih =>
    rcases p with ⟨k, q'⟩
    have hcons : (k :: t.map Prod.fst).Nodup := hnd
    rcases List.nodup_cons.mp hcons with ⟨hkt, hndt⟩
    by_cases hk : k = sku
    · subst hk
      obtain rfl : q' = q := by simpa [hget] using hM
      have ht : hget t k = none := hget_eq_none_of_not_mem t k hkt
      rw [List.foldl_cons, editorPass1_fold_get_of_none cur t _ k ht]
      by_cases hq : q' ≤ 0
      · by_cases hs : (hget cur k).isSome
        · simp [editorStep1, hq, hs]
        · have hcn : hget cur k = none := Option.not_isSome_iff_eq_none.mp hs
          simp [editorStep1, hq, hs, hacc, hcn]
      · by_cases he : hget cur k = some q'
        · simp [editorStep1, hq, he, hacc]
        · simp [editorStep1, hq, he]
    · have ht : hget t sku = some q := by simpa [hget, hk] using hM
      have hacc' :
          hget (editorStep1 cur acc (k, q')).1 sku = hget cur sku := by
        rw [hget_editorStep1_other cur acc (k, q') sku
          (fun hh => hk hh.symm)]
        exact hacc
      rw [List.foldl_cons]
      exact ih _ hndt hacc' ht

/-- Characterization of the second loop: it never touches a SKU still
present in the dict, and deletes every cart SKU that is not. -/
theorem editorPass2_fold_get (M C : Hash) (acc : Hash × Bool) (sku : String) :
    hget (C.foldl (editorStep2 M) acc).1 sku =
      if (hget M sku).isSome then hget acc.1 sku
      else if (hget C sku).isSome then none
      else hget acc.1 sku := by
  induction C generalizing acc with
  | nil => by_cases hM : (hget M sku).isSome <;> simp [hget, hM]
  | cons p t ih =>
    rcases p with ⟨k, v⟩
    by_cases hk : k = sku
    · subst hk
      by_cases hM : (hget M k).isSome
      · have hstep : editorStep2 M acc (k, v) = acc := by
          simp [editorStep2, hM]
        rw [List.foldl_cons, hstep, ih]
        simp [hM]
      · have hstep : editorStep2 M acc (k, v) = (hdel acc.1 k, true) := by
          simp [editorStep2, hM]
        rw [List.foldl_cons, hstep, ih]
        by_cases ht : (hget t k).isSome <;> simp [hget, hM, ht]
    · have hne : ¬ sku = k := fun hh => hk hh.symm
      have hstep : hget (editorStep2 M acc (k, v)).1 sku = hget acc.1 sku := by
        unfold editorStep2
        split_ifs <;> simp [hne]
      rw [List.foldl_cons, ih]
      simp [hget, hk, hstep]

/-- A first-loop step either changes nothing or raises the
`made_changes_in_editor` flag. -/
theorem editorStep1_cases (cur : Hash) (acc : Hash × Bool) (p : String × Int) :
    editorStep1 cur acc p = acc ∨ (editorStep1 cur acc p).2 = true := by
  unfold editorStep1
  split_ifs <;> simp

/-- The flag never falls back to `false` during the first loop. -/
theorem editorPass1_flag_mono (cur M : Hash) (acc : Hash × Bool)
    (h : acc.2 = true) : (M.foldl (editorStep1 cur) acc).2 = true := by
  induction M generalizing acc with
  | nil => exact h
  | cons p t ih =>
    rw [List.foldl_cons]
    rcases editorStep1_cases cur acc p with hc | hc
    · rw [hc]; exact ih _ h
    · exact ih _ hc

/-- A first-loop fold that reports no change queued no command. -/
theorem editorPass1_flag_false (cur M : Hash) (acc : Hash × Bool)
    (h : (M.foldl (editorStep1 cur) acc).2 = false) :
    M.foldl (editorStep1 cur) acc = acc := by
  induction M generalizing acc with
  | nil => rfl
  | cons p t ih =>
    rw [List.foldl_cons] at h ⊢
    rcases editorStep1_cases cur acc p with hc | hc
    · rw [hc] at h ⊢; exact ih _ h
    · exact absurd (editorPass1_flag_mono cur t _ hc) (by simp [h])

/-- A second-loop step either changes nothing or raises the flag. -/
theorem editorStep2_cases (M : Hash) (acc : Hash × Bool) (p : String × Int) :
    editorStep2 M acc p = acc ∨ (editorStep2 M acc p).2 = true := by
  unfold editorStep2
  split_ifs <;> simp

/-- The flag never falls back to `false` during the second loop. -/
theorem editorPass2_flag_mono (M C : Hash) (acc : Hash × Bool)
    (h : acc.2 = true) : (C.foldl (editorStep2 M) acc).2 = true := by
  induction C generalizing acc with
  | nil => exact h
  | cons p t ih =>
    rw [List.foldl_cons]
    rcases editorStep2_cases M acc p with hc | hc
    · rw [hc]; exact ih _ h
    · exact ih _ hc

/-- A second-loop fold that reports no change queued no command. -/
theorem editorPass2_flag_false (M C : Hash) (acc : Hash × Bool)
    (h : (C.foldl (editorStep2 M) acc).2 = false) :
    C.foldl (editorStep2 M) acc = acc := by
  induction C generalizing acc with
  | nil => rfl
  | cons p t ih =>
    rw [List.foldl_cons] at h ⊢
    rcases editorStep2_cases M acc p with hc | hc
    · rw [hc] at h ⊢; exact ih _ h
    · exact absurd (editorPass2_flag_mono M t _ hc) (by simp [h])

/-- The hash the two queued pipeline loops compute, applied over the
cart, holds exactly the positive entries of `edited_cart_dict`. -/
theorem editorPasses_get (s : Store) (M : Hash) (sku : String)
    (hnd : keysNodup M) :
    hget (editorPass2 s.cart M (editorPass1 s.cart M)).1 sku =
      posOnly (hget M sku) := by
  unfold editorPass2
  rw [editorPass2_fold_get]
  by_cases hM : (hget M sku).isSome
  · obtain ⟨q, hq⟩ := Option.isSome_iff_exists.mp hM
    rw [if_pos hM]
    unfold editorPass1
    rw [editorPass1_fold_get_some s.cart M (s.cart, false) sku q hnd rfl hq]
    by_cases h0 : q ≤ 0
    · simp [hq, posOnly, h0, not_lt.mpr h0]
    · simp [hq, posOnly, h0, lt_of_not_ge h0]
  · have hMn : hget M sku = none := Option.not_isSome_iff_eq_none.mp hM
    rw [if_neg hM]
    by_cases hC : (hget s.cart sku).isSome
    · simp [hC, hMn, posOnly]
    · have hCn : hget s.cart sku = none := Option.not_isSome_iff_eq_none.mp hC
      unfold editorPass1
      rw [if_neg hC, editorPass1_fold_get_of_none s.cart M _ sku hMn]
      simp [hMn, posOnly, hCn]

/-- C4: the editor-apply block realizing `ReplaceCart(user, M)`
followed by `GetCart(user)` yields exactly the entries of `M` with a
positive quantity: non-positive targets are deleted, new or changed
entries are set, and cart entries not mentioned in `M` are deleted (the
commands are queued in one pipeline and applied as a single batch). -/
theorem C4_replace_cart_roundtrip (s : Store) (M : Hash) (sku : String)
    (hnd : keysNodup M) :
    hget (get_cart (editor_apply M s)) sku = posOnly (hget M sku) := by
  have hchar := editorPasses_get s M sku hnd
  by_cases hr : (editorPass2 s.cart M (editorPass1 s.cart M)).2 = true
  · have heq : editor_apply M s =
        update_cart_ttl
          { s with cart := (editorPass2 s.cart M (editorPass1 s.cart M)).1 } := by
      simp only [editor_apply]
      rw [if_pos hr]
    show hget (editor_apply M s).cart sku = posOnly (hget M sku)
    rw [heq, update_cart_ttl_cart]
    exact hchar
  · have hr' : (editorPass2 s.cart M (editorPass1 s.cart M)).2 = false := by
      simpa using hr
    have h2 : editorPass2 s.cart M (editorPass1 s.cart M) = editorPass1 s.cart M :=
      editorPass2_flag_false M s.cart _ hr'
    have h1 : (editorPass1 s.cart M).2 = false := by rw [← h2]; exact hr'
    have h1' : editorPass1 s.cart M = (s.cart, false) :=
      editorPass1_flag_false s.cart M _ h1
    have hcart : (editorPass2 s.cart M (editorPass1 s.cart M)).1 = s.cart := by
      rw [h2, h1']
    rw [hcart] at hchar
    have heq : editor_apply M s = s := by
      simp only [editor_apply]
      rw [if_neg hr]
    show hget (editor_apply M s).cart sku = posOnly (hget M sku)
    rw [heq]
    exact hchar

theorem C4_replace_cart_roundtrip_witness :
    keysNodup [("A", 0), ("C", 5)] ∧
    hget (get_cart (editor_apply [("A", 0), ("C", 5)] cartAB)) "C" =
      posOnly (hget [("A", 0), ("C", 5)] "C") :=
  ⟨by decide, C4_replace_cart_roundtrip cartAB [("A", 0), ("C", 5)] "C" (by decide)⟩

/-- C6: `remove_item_from_cart` by case on the current quantity `q` of
the SKU: absent means a "not found" no-op (a reported signal, the store
untouched); `quantity_to_remove >= q` deletes the SKU entirely (absent
from the cart afterwards); otherwise the quantity is decremented and
the new quantity is reported. -/
theorem C6_remove_item_cases (s : Store) (sku : String) (d : Int) :
    (hget s.cart sku = none →
      remove_item_from_cart s sku d = (s, RemoveResult.notFound)) ∧
    (∀ q : Int, hget s.cart sku = some q → d ≥ q →
      (remove_item_from_cart s sku d).2 = RemoveResult.removedAll ∧
      hget (remove_item_from_cart s sku d).1.cart sku = none) ∧
    (∀ q : Int, hget s.cart sku = some q → d < q →
      (remove_item_from_cart s sku d).2 = RemoveResult.newQty (q - d) ∧
      hget (remove_item_from_cart s sku d).1.cart sku = some (q - d)) := by
  refine ⟨?_, ?_, ?_⟩
  · intro h
    simp [remove_item_from_cart, h]
  · intro q hq hd
    simp [remove_item_from_cart, hq, hd]
  · intro q hq hd
    have hnd : ¬ d ≥ q := not_le.mpr hd
    simp [remove_item_from_cart, hq, hnd, hincrby, sub_eq_add_neg]

theorem C6_remove_item_cases_witness :
    remove_item_from_cart cartAB "Z" 1 = (cartAB, RemoveResult.notFound) ∧
    ((remove_item_from_cart cartAB "A" 5).2 = RemoveResult.removedAll ∧
      hget (remove_item_from_cart cartAB "A" 5).1.cart "A" = none) ∧
    ((remove_item_from_cart cartAB "B" 1).2 = RemoveResult.newQty (2 - 1) ∧
      hget (remove_item_from_cart cartAB "B" 1).1.cart "B" = some (2 - 1)) :=
  ⟨(C6_remove_item_cases cartAB "Z" 1).1 (by decide),
   (C6_remove_item_cases cartAB "A" 5).2.1 2 (by decide) (by decide),
   (C6_remove_item_cases cartAB "B" 1).2.2 2 (by decide) (by decide)⟩

/-- C7 (counterexample): `main.py`'s `add_item_to_cart` performs no
validation: called with the non-positive quantity `-5` it still writes
to the store, turning the empty cart into `{"A": -5}` instead of
rejecting the call before any store interaction. -/
theorem C7_validation_counterexample :
    (-5 : Int) ≤ 0 ∧
    (add_item_to_cart emptyStore "A" (-5)).1.cart = [("A", -5)] := by
  decide

/-- C7 (amended): the streamlit boundary `add_to_cart` rejects a call
with `qty <= 0` or an empty SKU before any store interaction — the
store is unchanged and a warning (not the success outcome) is reported;
`main.py`'s `add_item_to_cart` performs no such validation. -/
theorem C7_streamlit_add_rejects (s : Store) (sku : String) (qty : Int)
    (h : qty ≤ 0 ∨ sku = "") :
    (add_to_cart sku qty s).2 = s ∧
    (add_to_cart sku qty s).1 ≠ AddResult.added := by
  rcases h with h | h
  · simp [add_to_cart, h]
  · by_cases hq : qty ≤ 0 <;> simp [add_to_cart, hq, h]

theorem C7_streamlit_add_rejects_witness :
    ((0 : Int) ≤ 0 ∨ "A" = "") ∧
    ((add_to_cart "A" 0 emptyStore).2 = emptyStore ∧
      (add_to_cart "A" 0 emptyStore).1 ≠ AddResult.added) :=
  ⟨Or.inl (by decide),
   C7_streamlit_add_rejects emptyStore "A" 0 (Or.inl (by decide))⟩

/-- C8: `checkout` on an empty cart leaves the whole store untouched
(so in particular appends no order record) and reports the benign
"nothing to checkout" signal by returning `False`. -/
theorem C8_checkout_empty_noop (uid now : String) (s : Store)
    (h : get_cart s = []) :
    (checkout uid now s).1 = false ∧ (checkout uid now s).2 = s := by
  simp [checkout, h]

theorem C8_checkout_empty_noop_witness :
    get_cart emptyStore = [] ∧
    ((checkout "u1" "t0" emptyStore).1 = false ∧
      (checkout "u1" "t0" emptyStore).2 = emptyStore) :=
  ⟨by decide, C8_checkout_empty_noop "u1" "t0" emptyStore (by decide)⟩

/-- C9: for a call meeting the preconditions, the new-quantity result
`add_item_to_cart` reports is exactly the quantity stored for that SKU
after the increment, namely the previous quantity (0 if absent) plus
`qty`. -/
theorem C9_add_result_is_new_total (s : Store) (sku : String) (qty : Int)
    (_hq : 0 < qty) (_hs : sku ≠ "") :
    hget (add_item_to_cart s sku qty).1.cart sku =
      some (add_item_to_cart s sku qty).2 ∧
    (add_item_to_cart s sku qty).2 = (hget s.cart sku).getD 0 + qty := by
  simp [add_item_to_cart, hincrby]

/-- A `main.py` cart call addressed to another SKU leaves this SKU's
entry unchanged. -/
theorem hget_applyCartOp_other (s : Store) (p : String × CartOp) (sku : String)
    (hne : p.1 ≠ sku) :
    hget (applyCartOp s p).cart sku = hget s.cart sku := by
  have hne' : ¬ sku = p.1 := fun hh => hne hh.symm
  rcases p with ⟨t1, op⟩
  cases op with
  | add d =>
    simp [applyCartOp, add_item_to_cart, hincrby, hne']
  | remove d =>
    simp only [applyCartOp, remove_item_from_cart]
    cases hc : hget s.cart t1 with
    | none => simp
    | some cur =>
      by_cases hd : d ≥ cur
      · simp [hd, hne']
      · simp [hd, hincrby, hne']

/-- One step of the clamped sum stays non-negative under valid
arguments. -/
theorem clampedStep_nonneg (v : Int) (op : CartOp) (hv : 0 ≤ v)
    (hval : op.valid) : 0 ≤ clampedStep v op := by
  cases op with
  | add d =>
    have hd : 0 < d := hval
    simp only [clampedStep]
    omega
  | remove d =>
    simp only [clampedStep]
    exact le_max_right _ _

/-- A `main.py` cart call on this SKU transforms the stored entry
exactly as one step of the clamped signed sum. -/
theorem hget_applyCartOp_self (s : Store) (sku : String) (op : CartOp) (v : Int)
    (hv : 0 ≤ v) (hval : op.valid)
    (hc : hget s.cart sku = clampedLift v) :
    hget (applyCartOp s (sku, op)).cart sku = clampedLift (clampedStep v op) := by
  cases op with
  | add d =>
    have hd : 0 < d := hval
    have hpos : 0 < v + d := by omega
    by_cases h0 : 0 < v
    · simp [applyCartOp, add_item_to_cart, hincrby, hc, clampedLift,
        clampedStep, h0, hpos]
    · have hv0 : v = 0 := by omega
      subst hv0
      simp [applyCartOp, add_item_to_cart, hincrby, hc, clampedLift,
        clampedStep, hpos, hd]
  | remove d =>
    have hd : 0 ≤ d := hval
    by_cases h0 : 0 < v
    · have hsome : hget s.cart sku = some v := by
        simpa [clampedLift, h0] using hc
      by_cases hge : d ≥ v
      · have hmax : max (v - d) 0 = 0 := max_eq_right (by omega)
        simp [applyCartOp, remove_item_from_cart, hsome, hge, clampedStep,
          hmax, clampedLift]
      · have hmax : max (v - d) 0 = v - d := max_eq_left (by omega)
        have hlt : 0 < v - d := by omega
        have hle : d < v := lt_of_not_ge hge
        simp [applyCartOp, remove_item_from_cart, hsome, hge, hincrby,
          clampedStep, hmax, clampedLift, hlt, hle, le_of_lt hle,
          sub_eq_add_neg]
    · have hv0 : v = 0 := by omega
      subst hv0
      have hnone : hget s.cart sku = none := by simpa [clampedLift] using hc
      have hdn : ¬ d < 0 := not_lt.mpr hd
      have hmax : max (0 - d) 0 = 0 := max_eq_right (by omega)
      simp [applyCartOp, remove_item_from_cart, hnone, clampedStep, hmax,
        clampedLift, hdn]

/-- Invariant form of the clamped-sum law, threading the running value
`v` through a call sequence. -/
theorem applyCartOps_hget_aux (ops : List (String × CartOp)) (s : Store)
    (sku : String) (v : Int)
    (hval : ∀ p ∈ ops, (Prod.snd p).valid) (hv : 0 ≤ v)
    (hc : hget s.cart sku = clampedLift v) :
    hget (applyCartOps s ops).cart sku =
      clampedLift ((opsOn sku ops).foldl clampedStep v) := by
  induction ops generalizing s v with
  | nil => simpa [applyCartOps, opsOn] using hc
  | cons p t ih =>
    have hvp : (Prod.snd p).valid := hval p (List.mem_cons_self _ _)
    have hvt : ∀ q ∈ t, (Prod.snd q).valid := fun q hq =>
      hval q (List.mem_cons_of_mem _ hq)
    by_cases hp : p.1 = sku
    · rcases p with ⟨t1, op⟩
      cases hp
      have hstep := hget_applyCartOp_self s t1 op v hv hvp hc
      have hv' : 0 ≤ clampedStep v op := clampedStep_nonneg v op hv hvp
      have hrec := ih (applyCartOp s (t1, op)) (clampedStep v op) hvt hv' hstep
      simpa [applyCartOps, opsOn] using hrec
    · have hpres := hget_applyCartOp_other s p sku hp
      have hrec := ih (applyCartOp s p) v hvt hv (hpres.trans hc)
      simpa [applyCartOps, opsOn, hp] using hrec

/-- C5: after any sequence of `main.py` `AddItem`/`RemoveItem` calls
with valid arguments, starting from a cart in which the SKU is absent,
the stored quantity of each SKU is the clamped sum of the signed deltas
addressed to it — clamped at zero at each step, and a value that is not
positive is never persisted (the SKU is absent instead). -/
theorem C5_clamped_signed_sum (ops : List (String × CartOp)) (s : Store)
    (sku : String) (hval : ∀ p ∈ ops, (Prod.snd p).valid)
    (h0 : hget s.cart sku = none) :
    hget (applyCartOps s ops).cart sku = clampedLift (clampedSum ops sku) := by
  have hbase : hget s.cart sku = clampedLift 0 := by
    simpa [clampedLift] using h0
  have := applyCartOps_hget_aux ops s sku 0 hval le_rfl hbase
  simpa [clampedSum] using this

theorem C5_clamped_signed_sum_witness :
    (∀ p ∈ opsScenario, (Prod.snd p).valid) ∧
    hget emptyStore.cart "A" = none ∧
    hget (applyCartOps emptyStore opsScenario).cart "A" =
      clampedLift (clampedSum opsScenario "A") :=
  ⟨by decide, by decide,
   C5_clamped_signed_sum opsScenario emptyStore "A" (by decide) (by decide)⟩

/-- Reduction of `editedDictStep` on a row with both fields present. -/
theorem editedDictStep_some_some (acc : Hash) (tk : String) (q : Int) :
    editedDictStep acc ⟨some tk, some q⟩ =
      if tk ≠ "" ∧ tk.trim ≠ "" then
        hset acc tk.trim ((hget acc tk.trim).getD 0 + q)
      else acc := rfl

/-- A row with a missing quantity never changes the dict. -/
theorem editedDictStep_some_none (acc : Hash) (tk : String) :
    editedDictStep acc ⟨some tk, none⟩ = acc := by
  have h : editedDictStep acc ⟨some tk, none⟩ =
      if tk ≠ "" ∧ tk.trim ≠ "" then acc else acc := rfl
  rw [h, ite_self]

/-- A row with a missing SKU never changes the dict. -/
theorem editedDictStep_none (acc : Hash) (oq : Option Int) :
    editedDictStep acc ⟨none, oq⟩ = acc := rfl

/-- Reduction of `rowContribs` on a row with both fields present. -/
theorem rowContribs_some_some (t : List Row) (sku tk : String) (q : Int) :
    rowContribs (⟨some tk, some q⟩ :: t) sku =
      if (tk ≠ "" ∧ tk.trim ≠ "") ∧ tk.trim = sku then q :: rowContribs t sku
      else rowContribs t sku := rfl

/-- A row with a missing quantity contributes nothing. -/
theorem rowContribs_some_none (t : List Row) (sku tk : String) :
    rowContribs (⟨some tk, none⟩ :: t) sku = rowContribs t sku := rfl

/-- A row with a missing SKU contributes nothing. -/
theorem rowContribs_none (t : List Row) (sku : String) (oq : Option Int) :
    rowContribs (⟨none, oq⟩ :: t) sku = rowContribs t sku := rfl

/-- Invariant form of the dict-building law, threading the accumulated
dict through the loop. -/
theorem buildEditedDict_fold_get (rows : List Row) (acc : Hash) (sku : String) :
    hget (rows.foldl editedDictStep acc) sku =
      if rowContribs rows sku = [] then hget acc sku
      else some ((hget acc sku).getD 0 + (rowContribs rows sku).sum) := by
  induction rows generalizing acc with
  | nil => simp [rowContribs]
  | cons r t ih =>
    rcases r with ⟨os, oq⟩
    cases os with
    | none =>
      rw [List.foldl_cons, editedDictStep_none, rowContribs_none]
      exact ih acc
    | some tk =>
      cases oq with
      | none =>
        rw [List.foldl_cons, editedDictStep_some_none, rowContribs_some_none]
        exact ih acc
      | some q =>
        by_cases hcond : tk ≠ "" ∧ tk.trim ≠ ""
        · by_cases hsku : tk.trim = sku
          · have hp : (tk ≠ "" ∧ tk.trim ≠ "") ∧ tk.trim = sku := ⟨hcond, hsku⟩
            rw [List.foldl_cons, editedDictStep_some_some, if_pos hcond,
              rowContribs_some_some, if_pos hp, hsku, ih]
            have hacc' :
                hget (hset acc sku ((hget acc sku).getD 0 + q)) sku =
                  some ((hget acc sku).getD 0 + q) := by simp
            by_cases hrt : rowContribs t sku = []
            · simp [hrt, hacc']
            · simp [hrt, hacc', add_assoc]
          · have hnp : ¬ ((tk ≠ "" ∧ tk.trim ≠ "") ∧ tk.trim = sku) :=
              fun hh => hsku hh.2
            have hne : ¬ sku = tk.trim := fun hh => hsku hh.symm
            rw [List.foldl_cons, editedDictStep_some_some, if_pos hcond,
              rowContribs_some_some, if_neg hnp, ih]
            simp [hne]
        · have hnp : ¬ ((tk ≠ "" ∧ tk.trim ≠ "") ∧ tk.trim = sku) :=
            fun hh => hcond hh.1
          rw [List.foldl_cons, editedDictStep_some_some, if_neg hcond,
            rowContribs_some_some, if_neg hnp]
          exact ih acc

/-- C10: normalization of the edited-table rows before the ReplaceCart
diff.  For every list of rows and SKU, the entry of `edited_cart_dict`
at that SKU is the sum of the quantities of the rows that survive
normalization for it — SKUs are stripped of surrounding whitespace,
rows with a missing/empty/whitespace-only SKU are ignored, rows with a
missing quantity are ignored, and several rows with the same normalized
SKU merge by summing — and the SKU is absent when no row survives. -/
theorem C10_editor_normalization (rows : List Row) (sku : String) :
    hget (buildEditedDict rows) sku =
      if rowContribs rows sku = [] then none
      else some (rowContribs rows sku).sum := by
  have h := buildEditedDict_fold_get rows [] sku
  simpa [buildEditedDict, hget] using h

theorem C9_add_result_is_new_total_witness :
    (0 : Int) < 3 ∧ ("A" : String) ≠ "" ∧
    (hget (add_item_to_cart cartAB "A" 3).1.cart "A" =
        some (add_item_to_cart cartAB "A" 3).2 ∧
      (add_item_to_cart cartAB "A" 3).2 = (hget cartAB.cart "A").getD 0 + 3) :=
  ⟨by decide, by decide,
   C9_add_result_is_new_total cartAB "A" 3 (by decide) (by decide)⟩

end RedisCart
